import Mathlib

/-!
Shallow embedding of the Arb-Chameleon simulation core
(src/rl/src/arb_env.py, src/rl/src/backtest.py,
src/rl/src/heuristic_backtest.py, src/rl/src/backtest_l2.py).

Floating-point arithmetic is idealized over the real numbers.  The
process-global numpy random generator is modelled as an oracle stream of
the values returned by its successive calls; the environment's own
seedable generator (gymnasium's self.np_random, seeded by reset(seed) and
never consumed by this code) is modelled as a stored seed field.
-/

namespace ArbChameleon

/-- Oracle model of the process-global numpy random generator
(np.random.*): a stream of the values its successive calls return, with a
cursor.  This state is process-scoped and is not touched by
ArbitrageEnv.reset. -/
structure GlobalRng where
  stream : Nat → ℝ
  idx : Nat

/-- Consume one value from the global generator. -/
def GlobalRng.next (g : GlobalRng) : ℝ × GlobalRng :=
  (g.stream g.idx, ⟨g.stream, g.idx + 1⟩)

/-- A global generator whose every call returns the constant c. -/
def constRng (c : ℝ) : GlobalRng := ⟨fun _ => c, 0⟩

/-- The 9-feature market-state vector produced by
ArbitrageEnv._generate_market_state (arb_env.py lines 150-160), with
named fields in array order. -/
structure MarketState where
  spread : ℝ
  liquidity : ℝ
  volatility : ℝ
  gasPriceNorm : ℝ
  congestion : ℝ
  successRate : ℝ
  revertRate : ℝ
  timeOfDay : ℝ
  blockTimeVariance : ℝ

/-- Instance state of ArbitrageEnv (arb_env.py __init__/reset). -/
structure EnvState where
  gasMultiplier : ℝ
  initialCapital : ℝ
  currentStep : Nat
  maxSteps : Nat
  totalPnl : ℝ
  totalGasSpent : ℝ
  numReverts : Nat
  numSuccesses : Nat
  state : MarketState
  npRandomSeed : Option Nat

/-- Raw 5-component action array handed to step(). -/
structure RawAction where
  a0 : ℝ
  a1 : ℝ
  a2 : ℝ
  a3 : ℝ
  a4 : ℝ

/-- np.clip(x, lo, hi). -/
def clip (x lo hi : ℝ) : ℝ := max lo (min x hi)

/-- self.trade_sizes = [50, 100, 1000, 10000] (arb_env.py line 44). -/
def tradeSizes : List ℝ := [50, 100, 1000, 10000]

/-- self.strategies (arb_env.py line 47). -/
def strategies : List String := ["dex_arb", "triangular", "backrun", "liquidation"]

/-- The parsed action as computed at the top of step()
(arb_env.py lines 82-90). -/
structure ParsedAction where
  threshold : ℝ
  tradeSizeIdx : Nat
  strategyIdx : Nat
  priorityFee : ℝ
  useFlashloan : Bool

/-- Action parsing from step(): threshold = float(action[0]) (no clamp),
trade_size_idx = int(np.clip(action[1], 0, 3)) (int() truncates toward
zero, which on the clipped nonnegative value is the floor),
strategy_idx likewise, priority_fee = float(action[3]) (no clamp),
use_flashloan = action[4] > 0.5. -/
noncomputable def parseAction (a : RawAction) : ParsedAction :=
  ⟨a.a0,
   (⌊clip a.a1 0 3⌋).toNat,
   (⌊clip a.a2 0 3⌋).toNat,
   a.a3,
   if a.a4 > 0.5 then true else false⟩

/-- The dict returned by ArbitrageEnv._simulate_trade. -/
structure TradeOutcome where
  success : Bool
  pnl : ℝ
  gasCost : ℝ
  reverted : Bool

/-- base_gas_units: 300000 if use_flashloan else 150000 (line 189). -/
def baseGasUnits (useFlashloan : Bool) : ℝ :=
  if useFlashloan then 300000 else 150000

/-- current_gas_price_gwei = 20 + priority_fee * 10 (line 196). -/
def gasPriceGwei (priorityFee : ℝ) : ℝ := 20 + priorityFee * 10

/-- gas_cost_usd = (gas_units * gwei * 1e-9) * 2500 (lines 197-198). -/
def gasCostUsd (gasUnits gwei : ℝ) : ℝ := gasUnits * gwei * 1e-9 * 2500

/-- pool_depth_usd = liquidity * 10_000_000 (line 201). -/
def poolDepthUsd (liquidity : ℝ) : ℝ := liquidity * 10000000

/-- price_impact = (trade_size / pool_depth_usd) ** 1.5 (line 202),
real-power semantics for the float power. -/
noncomputable def priceImpact (tradeSize poolDepth : ℝ) : ℝ :=
  (tradeSize / poolDepth) ^ (1.5 : ℝ)

/-- base_revert_prob = 0.8 if congestion > 0.8 else 0.3 (line 213). -/
noncomputable def baseRevertProb (congestion : ℝ) : ℝ :=
  if congestion > 0.8 then 0.8 else 0.3

/-- revert_prob = max(0.1, base - (priority_fee / 5.0) * 0.4)
(lines 214-215). -/
noncomputable def revertProb (congestion priorityFee : ℝ) : ℝ :=
  max 0.1 (baseRevertProb congestion - priorityFee / 5 * 0.4)

/-- ArbitrageEnv._simulate_trade (arb_env.py lines 162-233).  Reads the
current market state and the gas multiplier from the instance; the
single Bernoulli revert draw np.random.random() is consumed from the
global generator only after the threshold gate passes. -/
noncomputable def simulateTrade (gasMultiplier : ℝ) (st : MarketState)
    (threshold tradeSize : ℝ) (strategy : String) (priorityFee : ℝ)
    (useFlashloan : Bool) (g : GlobalRng) : TradeOutcome × GlobalRng :=
  if st.spread < threshold then
    (⟨false, 0, 0, false⟩, g)
  else
    let gasUnits := baseGasUnits useFlashloan * gasMultiplier
    let gwei := gasPriceGwei priorityFee
    let gasCost := gasCostUsd gasUnits gwei
    let poolDepth := poolDepthUsd st.liquidity
    let impact := priceImpact tradeSize poolDepth
    let flashLoanFee := if useFlashloan then tradeSize * 0.0009 else 0
    let grossProfit := tradeSize * st.spread
    let slippageCost := tradeSize * impact
    let netProfit := grossProfit - slippageCost - gasCost - flashLoanFee
    let prob := revertProb st.congestion priorityFee
    let (u, g') := g.next
    if u < prob then
      (⟨false, -(gasCost * 0.6), gasCost * 0.6, true⟩, g')
    else
      (⟨true, netProfit, gasCost, false⟩, g')

/-- ArbitrageEnv._calculate_reward (arb_env.py lines 235-250).  The
spread argument is self.state[0] at the time the reward is computed,
i.e. the state the trade was evaluated against (the resample happens
afterwards in step()). -/
noncomputable def calculateReward (tr : TradeOutcome) (spread : ℝ) : ℝ :=
  let r1 := tr.pnl
  let r2 := if tr.reverted then r1 - 100 else r1
  let r3 := if tr.gasCost > 50 then r2 - (tr.gasCost - 50) * 2 else r2
  if tr.success = false ∧ spread > 0.01 then r3 - 5 else r3

/-- Output of the legacy numpy global RandomState standard-exponential
sampler for a unit draw u, scale 1: -log(1 - u). -/
noncomputable def expDraw (u : ℝ) : ℝ := -Real.log (1 - u)

/-- ArbitrageEnv._generate_market_state (arb_env.py lines 137-160).
Every draw comes from the process-global numpy generator; uniform(a, b)
is a + (b - a) * u for a unit draw u, exponential(s) is s * expDraw u. -/
noncomputable def generateMarketState (numSuccesses numReverts currentStep : Nat)
    (g : GlobalRng) : MarketState × GlobalRng :=
  let (u0, g0) := g.next
  let sg :=
    if u0 < 0.01 then
      let (u, g1) := g0.next
      (0.002 * expDraw u, g1)
    else
      let (u, g1) := g0.next
      (0 + (0.0005 - 0) * u, g1)
  let spread := sg.1
  let (u2, g2) := sg.2.next
  let (u3, g3) := g2.next
  let (u4, g4) := g3.next
  let (u5, g5) := g4.next
  let (u6, g6) := g5.next
  (⟨spread,
    0.1 + (1.0 - 0.1) * u2,
    0 + (0.2 - 0) * u3,
    0.2 + (0.8 - 0.2) * u4,
    0.5 + (1.0 - 0.5) * u5,
    (numSuccesses : ℝ) / ((max 1 currentStep : Nat) : ℝ),
    (numReverts : ℝ) / ((max 1 currentStep : Nat) : ℝ),
    ((currentStep % 24 : Nat) : ℝ) / 24,
    0 + (0.1 - 0) * u6⟩, g6)

/-- ArbitrageEnv.reset (arb_env.py lines 61-74).  super().reset(seed)
reseeds gymnasium's self.np_random when a seed is given; that generator
is never consumed by this code, so it is modelled as the stored seed.
The initial market state is drawn from the untouched global generator.
Returns (observation, new instance state, global generator). -/
noncomputable def reset (e : EnvState) (seed : Option Nat) (g : GlobalRng) :
    MarketState × EnvState × GlobalRng :=
  let seed' := match seed with
    | some s => some s
    | none => e.npRandomSeed
  let sg := generateMarketState 0 0 0 g
  (sg.1,
   ⟨e.gasMultiplier, e.initialCapital, 0, e.maxSteps, 0, 0, 0, 0, sg.1, seed'⟩,
   sg.2)

/-- The info dict returned by step(). -/
structure Info where
  pnl : ℝ
  gasCost : ℝ
  success : Bool
  reason : Option String
  totalPnl : ℝ
  numSuccesses : Nat
  numReverts : Nat

/-- The 5-tuple returned by step(), together with the post-call instance
state and global generator. -/
structure StepResult where
  obs : MarketState
  reward : ℝ
  terminated : Bool
  truncated : Bool
  info : Info
  env : EnvState
  rng : GlobalRng

/-- ArbitrageEnv.step (arb_env.py lines 76-135), faithful to the source:
current_step is incremented first; the capital guard returns early with
reward -10 and reason insufficient_capital; otherwise the trade is
simulated, the reward computed against the pre-resample state, the next
market state sampled and terminated/truncated evaluated.  The source
never writes total_pnl, total_gas_spent, num_successes or num_reverts in
step(), so those fields pass through unchanged on every path. -/
noncomputable def step (e : EnvState) (a : RawAction) (g : GlobalRng) : StepResult :=
  let e1 : EnvState := { e with currentStep := e.currentStep + 1 }
  let p := parseAction a
  let tradeSize := tradeSizes.getD p.tradeSizeIdx 0
  let strategy := strategies.getD p.strategyIdx ""
  let currentCapital := e1.initialCapital + e1.totalPnl
  if p.useFlashloan = false ∧ tradeSize > currentCapital then
    ⟨e1.state, -10, false, false,
     ⟨0, 0, false, some "insufficient_capital",
      e1.totalPnl, e1.numSuccesses, e1.numReverts⟩,
     e1, g⟩
  else
    let trg := simulateTrade e1.gasMultiplier e1.state p.threshold tradeSize
      strategy p.priorityFee p.useFlashloan g
    let tr := trg.1
    let reward := calculateReward tr e1.state.spread
    let sg := generateMarketState e1.numSuccesses e1.numReverts e1.currentStep trg.2
    let e2 : EnvState := { e1 with state := sg.1 }
    ⟨sg.1, reward,
     decide (e2.totalPnl < -10000),
     decide (e2.currentStep ≥ e2.maxSteps),
     ⟨tr.pnl, tr.gasCost, tr.success, none,
      e2.totalPnl, e2.numSuccesses, e2.numReverts⟩,
     e2, sg.2⟩

/-! Backtester embedding (backtest.py / heuristic_backtest.py).  The
environment interaction is abstracted to the per-step info values the
recording loop reads: pnl, gas_cost, success, and whether the step
signalled terminated or truncated. -/

/-- The trade record dict appended by HistoricalBacktester.run_backtest
(backtest.py lines 124-131). -/
structure Trade where
  episode : Nat
  step : Nat
  pnl : ℝ
  gasCost : ℝ
  success : Bool
  capital : ℝ

/-- Default trade record used only as a list-indexing fallback. -/
def dummyTrade : Trade := ⟨0, 0, 0, 0, false, 0⟩

/-- The part of a step() return the recording loop reads. -/
structure StepInfo where
  pnl : ℝ
  gasCost : ℝ
  success : Bool
  done : Bool

/-- Mutable backtester state (backtest.py __init__ lines 47-63 and the
aggregate counters of run_backtest lines 80-84). -/
structure BtState where
  currentCapital : ℝ
  capitalHistory : List ℝ
  trades : List Trade
  totalTrades : Nat
  successfulTrades : Nat
  failedTrades : Nat
  totalPnl : ℝ
  totalGasSpent : ℝ

/-- Fresh backtester state (HistoricalBacktester.__init__). -/
def initBt (initialCapital : ℝ) : BtState :=
  ⟨initialCapital, [initialCapital], [], 0, 0, 0, 0, 0⟩

/-- The record-trade block of HistoricalBacktester.run_backtest
(backtest.py lines 104-131): when the pnl in info is nonzero, bump the
counters, add the pnl to capital, append the new capital to the
history and append a trade record carrying it. -/
noncomputable def recordStep (ep st : Nat) (s : BtState) (i : StepInfo) : BtState :=
  if i.pnl ≠ 0 then
    let cap := s.currentCapital + i.pnl
    ⟨cap,
     s.capitalHistory ++ [cap],
     s.trades ++ [⟨ep, st, i.pnl, i.gasCost, i.success, cap⟩],
     s.totalTrades + 1,
     s.successfulTrades + (if i.success then 1 else 0),
     s.failedTrades + (if i.success then 0 else 1),
     s.totalPnl + i.pnl,
     s.totalGasSpent + i.gasCost⟩
  else s

/-- The inner step loop of HistoricalBacktester.run_backtest (backtest.py
lines 94-137): record the step, break the episode on bankruptcy after a
recorded trade (lines 133-134), break on terminated/truncated. -/
noncomputable def runSteps (ep : Nat) : Nat → List StepInfo → BtState → BtState
  | _, [], s => s
  | st, i :: rest, s =>
      let s' := recordStep ep st s i
      if i.pnl ≠ 0 ∧ s'.currentCapital ≤ 0 then s'
      else if i.done then s'
      else runSteps ep (st + 1) rest s'

/-- The episode loop of HistoricalBacktester.run_backtest (backtest.py
lines 86-143): stop the whole run when capital is exhausted (lines
90-92), otherwise run the episode's steps. -/
noncomputable def runEpisodes : Nat → List (List StepInfo) → BtState → BtState
  | _, [], s => s
  | ep, infos :: rest, s =>
      if s.currentCapital ≤ 0 then s
      else runEpisodes (ep + 1) rest (runSteps ep 0 infos s)

/-- The record block of HeuristicBacktester.run_backtest
(heuristic_backtest.py lines 70-88): same counter and capital updates as
the base engine, but no trade record is appended. -/
noncomputable def recordStepHeuristic (s : BtState) (i : StepInfo) : BtState :=
  if i.pnl ≠ 0 then
    ⟨s.currentCapital + i.pnl,
     s.capitalHistory ++ [s.currentCapital + i.pnl],
     s.trades,
     s.totalTrades + 1,
     s.successfulTrades + (if i.success then 1 else 0),
     s.failedTrades + (if i.success then 0 else 1),
     s.totalPnl + i.pnl,
     s.totalGasSpent + i.gasCost⟩
  else s

/-- The inner step loop of HeuristicBacktester.run_backtest
(heuristic_backtest.py lines 43-91): no bankruptcy break, only the
terminated/truncated break. -/
noncomputable def runStepsHeuristic : List StepInfo → BtState → BtState
  | [], s => s
  | i :: rest, s =>
      let s' := recordStepHeuristic s i
      if i.done then s' else runStepsHeuristic rest s'

/-- HistoricalBacktester._calculate_max_drawdown inner loop body
(backtest.py lines 184-188): raise the running peak, compute the
drawdown at this point (0 when the peak is not positive), keep the
maximum. -/
noncomputable def ddStep (pm : ℝ × ℝ) (c : ℝ) : ℝ × ℝ :=
  let peak := if c > pm.1 then c else pm.1
  let dd := if peak > 0 then (peak - c) / peak else 0
  (peak, max pm.2 dd)

/-- HistoricalBacktester._calculate_max_drawdown (backtest.py lines
176-190): 0 for fewer than 2 history entries, else the loop over the
whole history starting from peak = capital_history[0], reported as a
percentage. -/
noncomputable def calculateMaxDrawdown (h : List ℝ) : ℝ :=
  if h.length < 2 then 0
  else (h.foldl ddStep (h.headD 0, 0)).2 * 100

/-- Arithmetic mean of a list of reals (np.mean). -/
noncomputable def listMean (l : List ℝ) : ℝ := l.sum / l.length

/-- Population standard deviation (np.std). -/
noncomputable def listStd (l : List ℝ) : ℝ :=
  Real.sqrt (listMean (l.map (fun x => (x - listMean l) ^ 2)))

/-- HistoricalBacktester._calculate_sharpe_ratio (backtest.py lines
192-212): 0 for fewer than 2 trades or zero volatility, else
mean/std annualized by sqrt 252 over the trade-level pnl sequence. -/
noncomputable def calculateSharpeRatio (trades : List Trade) : ℝ :=
  if trades.length < 2 then 0
  else
    let returns := trades.map Trade.pnl
    if returns.length = 0 then 0
    else
      let s := listStd returns
      if s = 0 then 0
      else listMean returns / s * Real.sqrt 252

/-! Concrete fixtures used by the theorems below. -/

/-- Market state with a clear opportunity: spread 0.01, deep pool,
moderate congestion. -/
noncomputable def stC1 : MarketState := ⟨0.01, 1, 0.1, 0.5, 0.5, 0, 0, 0, 0⟩

/-- Fresh environment: gas multiplier 1, initial capital 100. -/
noncomputable def envC1 : EnvState := ⟨1, 100, 0, 1000, 0, 0, 0, 0, stC1, none⟩

/-- Action: threshold 0.005, smallest trade size (index 0, 50 USD),
strategy 0, priority fee 0, flash-loan input 0. -/
noncomputable def actC1 : RawAction := ⟨0.005, 0, 0, 0, 0⟩

lemma parseAction_actC1 : parseAction actC1 = ⟨0.005, 0, 0, 0, false⟩ := by
  unfold parseAction actC1 clip
  norm_num

lemma simulateTrade_C1 (s : String) :
    simulateTrade 1 stC1 0.005 50 s 0 false (constRng 0.9) =
      (⟨true,
        50 * stC1.spread - 50 * priceImpact 50 (poolDepthUsd stC1.liquidity)
          - gasCostUsd (baseGasUnits false * 1) (gasPriceGwei 0) - 0,
        gasCostUsd (baseGasUnits false * 1) (gasPriceGwei 0), false⟩,
       ⟨fun _ => 0.9, 1⟩) := by
  unfold simulateTrade revertProb baseRevertProb GlobalRng.next constRng stC1
  norm_num [max_def]

lemma gasCost_C1 : gasCostUsd (baseGasUnits false * 1) (gasPriceGwei 0) = 7.5 := by
  unfold gasCostUsd baseGasUnits gasPriceGwei
  norm_num

lemma priceImpact_nonneg (t p : ℝ) (h : 0 ≤ t / p) : 0 ≤ priceImpact t p :=
  Real.rpow_nonneg h _

/-- C1: the claim says step() adds the outcome pnl to the cumulative PnL
counter and bumps the success/revert counters before evaluating the loss
limit.  In the source these counters are never written by step(): they
pass through unchanged on every path, and even a successful trade with
nonzero pnl leaves total_pnl = 0, num_successes = 0, so the loss-limit
signal and the recent-success/recent-revert features never reflect the
simulated trades. -/
theorem step_counters_never_updated :
    (∀ (e : EnvState) (a : RawAction) (g : GlobalRng),
      (step e a g).env.totalPnl = e.totalPnl ∧
      (step e a g).env.numSuccesses = e.numSuccesses ∧
      (step e a g).env.numReverts = e.numReverts ∧
      (step e a g).env.totalGasSpent = e.totalGasSpent) ∧
    ((step envC1 actC1 (constRng 0.9)).info.success = true ∧
      (step envC1 actC1 (constRng 0.9)).info.pnl ≠ 0 ∧
      (step envC1 actC1 (constRng 0.9)).env.totalPnl = 0 ∧
      (step envC1 actC1 (constRng 0.9)).env.numSuccesses = 0 ∧
      (step envC1 actC1 (constRng 0.9)).terminated = false) := by
  constructor
  · intro e a g
    refine ⟨?_, ?_, ?_, ?_⟩ <;>
      (unfold step; dsimp only; split <;> rfl)
  · have himp : 0 ≤ priceImpact 50 (poolDepthUsd 1) := by
      refine priceImpact_nonneg _ _ ?_
      unfold poolDepthUsd
      positivity
    unfold step envC1
    rw [parseAction_actC1]
    dsimp only
    rw [show (tradeSizes.getD 0 0 : ℝ) = 50 from by norm_num [tradeSizes]]
    rw [if_neg (by norm_num)]
    rw [simulateTrade_C1]
    dsimp only
    refine ⟨rfl, ?_, rfl, rfl, ?_⟩
    · rw [gasCost_C1]
      unfold stC1
      dsimp only
      intro h
      nlinarith [himp]
    · exact decide_eq_false_iff_not.mpr (by norm_num)

lemma reset_spread_const (e : EnvState) (s : Option Nat) (c : ℝ) (hc : ¬ c < 0.01) :
    (reset e s (constRng c)).1.spread = 0 + (0.0005 - 0) * c := by
  unfold reset generateMarketState GlobalRng.next constRng
  dsimp only
  rw [if_neg hc]

/-- C2: reproducibility under reset(seed).  First part: the observation
and the post-reset global generator do not depend on the seed at all,
because every draw comes from the process-global generator and reset
only stores the seed into the never-consumed np_random.  Second part:
two runs that reset with the same seed but whose process-global
generators hold different values (as independent processes do) observe
different market states, so the claimed two-run determinism fails. -/
theorem reset_seed_not_reproducible :
    (∀ (e : EnvState) (s s' : Option Nat) (g : GlobalRng),
        (reset e s g).1 = (reset e s' g).1 ∧
        (reset e s g).2.2 = (reset e s' g).2.2) ∧
    (reset envC1 (some 0) (constRng 0.5)).1 ≠ (reset envC1 (some 0) (constRng 0.3)).1 := by
  constructor
  · intro e s s' g
    exact ⟨rfl, rfl⟩
  · intro h
    have hs := congrArg MarketState.spread h
    rw [reset_spread_const _ _ _ (by norm_num),
        reset_spread_const _ _ _ (by norm_num)] at hs
    norm_num at hs

/-- Characterization of the insufficient-capital early return
(arb_env.py lines 92-105): shared helper for the C3 theorems. -/
lemma step_capital_guard (e : EnvState) (a : RawAction) (g : GlobalRng)
    (hf : (parseAction a).useFlashloan = false)
    (hs : tradeSizes.getD (parseAction a).tradeSizeIdx 0 > e.initialCapital + e.totalPnl) :
    step e a g = ⟨e.state, -10, false, false,
      ⟨0, 0, false, some "insufficient_capital", e.totalPnl, e.numSuccesses, e.numReverts⟩,
      { e with currentStep := e.currentStep + 1 }, g⟩ := by
  unfold step
  dsimp only
  rw [if_pos ⟨hf, hs⟩]

/-- Action proposing trade-size index 3 (10000 USD) without a flash
loan. -/
noncomputable def actC3 : RawAction := ⟨0.001, 3, 0, 0, 0⟩

lemma parseAction_actC3 : parseAction actC3 = ⟨0.001, 3, 0, 0, false⟩ := by
  unfold parseAction actC3 clip
  norm_num
  decide

/-- C3 counterexample: the claim says the insufficient-capital return
performs no state mutation, in particular that the step counter is
exactly as before the call.  In the source current_step is incremented
before the capital guard runs, so after the guarded return it differs
from its pre-call value. -/
theorem step_capital_guard_increments_step_counter :
    (step envC1 actC3 (constRng 0.5)).info.reason = some "insufficient_capital" ∧
    (step envC1 actC3 (constRng 0.5)).env.currentStep ≠ envC1.currentStep := by
  have h := step_capital_guard envC1 actC3 (constRng 0.5)
    (by rw [parseAction_actC3])
    (by rw [parseAction_actC3]; norm_num [tradeSizes, envC1])
  rw [h]
  refine ⟨rfl, ?_⟩
  show envC1.currentStep + 1 ≠ envC1.currentStep
  omega

/-- C3 amended: when the proposed trade size exceeds
initial_capital + cumulative pnl and the flash-loan flag is unset,
step() returns reward -10.0, success = false, reason
insufficient_capital, pnl 0 and gas 0 in info, the market state
unchanged (and no random draw consumed), all pnl/gas/success/revert
accounting unchanged, and the only mutation is the step counter, which
was already incremented before the guard. -/
theorem step_insufficient_capital_behavior (e : EnvState) (a : RawAction) (g : GlobalRng)
    (hf : (parseAction a).useFlashloan = false)
    (hs : tradeSizes.getD (parseAction a).tradeSizeIdx 0 > e.initialCapital + e.totalPnl) :
    (step e a g).reward = -10 ∧
    (step e a g).info.success = false ∧
    (step e a g).info.reason = some "insufficient_capital" ∧
    (step e a g).info.pnl = 0 ∧
    (step e a g).info.gasCost = 0 ∧
    (step e a g).obs = e.state ∧
    (step e a g).rng = g ∧
    (step e a g).env = { e with currentStep := e.currentStep + 1 } := by
  rw [step_capital_guard e a g hf hs]
  exact ⟨rfl, rfl, rfl, rfl, rfl, rfl, rfl, rfl⟩

/-- C3 witness: the guard scenario of the spec, initial_capital 100,
total_pnl 0, proposed trade size 10000, flash-loan flag unset. -/
theorem step_insufficient_capital_behavior_witness :
    (step envC1 actC3 (constRng 0.5)).reward = -10 ∧
    (step envC1 actC3 (constRng 0.5)).info.reason = some "insufficient_capital" ∧
    (step envC1 actC3 (constRng 0.5)).obs = envC1.state := by
  have h := step_insufficient_capital_behavior envC1 actC3 (constRng 0.5)
    (by rw [parseAction_actC3])
    (by rw [parseAction_actC3]; norm_num [tradeSizes, envC1])
  exact ⟨h.1, h.2.2.1, h.2.2.2.2.2.1⟩

/-- Bound used by the action-parsing claim: the clipped, truncated index
always lands in {0, 1, 2, 3}. -/
lemma clip_idx_le_three (x : ℝ) : (⌊clip x 0 3⌋).toNat ≤ 3 := by
  rw [Int.toNat_le]
  have h1 : clip x 0 3 ≤ 3 := max_le (by norm_num) (min_le_right _ _)
  have h2 : ⌊clip x 0 3⌋ ≤ ⌊(3 : ℝ)⌋ := Int.floor_le_floor h1
  have h3 : ⌊(3 : ℝ)⌋ = 3 := by norm_num
  omega

lemma tradeSizes_getD_mem (i : Nat) (h : i ≤ 3) : tradeSizes.getD i 0 ∈ tradeSizes := by
  have hl : i < tradeSizes.length := by
    simp only [tradeSizes, List.length_cons, List.length_nil]
    omega
  rw [List.getD_eq_getElem _ _ hl]
  exact List.getElem_mem hl

lemma strategies_getD_mem (i : Nat) (h : i ≤ 3) : strategies.getD i "" ∈ strategies := by
  have hl : i < strategies.length := by
    simp only [strategies, List.length_cons, List.length_nil]
    omega
  rw [List.getD_eq_getElem _ _ hl]
  exact List.getElem_mem hl

/-- Out-of-range action: threshold input 0.9 (above the configured high
of 0.005) and priority-fee input 10 (above the configured high of 5). -/
noncomputable def actC4 : RawAction := ⟨0.9, 1, 0, 10, 0⟩

/-- C4 counterexample: the claim says every action component is clamped
to its configured bounds before use.  The parsed threshold and priority
fee are the raw inputs 0.9 and 10, both strictly outside their
configured bounds [0.0005, 0.005] and [0, 5]; step() uses these parsed
values directly (the in-repo heuristic policy even relies on the
unclamped threshold 0.9 to abstain from trading). -/
theorem parse_action_threshold_priority_not_clamped :
    (parseAction actC4).threshold = 0.9 ∧
    ¬ (parseAction actC4).threshold ≤ 0.005 ∧
    (parseAction actC4).priorityFee = 10 ∧
    ¬ (parseAction actC4).priorityFee ≤ 5 := by
  have h : parseAction actC4 = ⟨0.9, 1, 0, 10, false⟩ := by
    unfold parseAction actC4 clip
    norm_num
  rw [h]
  norm_num

/-- C4 amended: only the two discrete indices are clamped (to {0,..,3},
so the list lookups always hit a configured entry); the threshold and
priority-fee components are used verbatim without clamping, and the
flash-loan input is interpreted solely through the 0.5 threshold
crossing.  No action component is ever rejected with an error: parsing
and step() are total. -/
theorem parse_action_clamps_only_indices (a : RawAction) :
    (parseAction a).tradeSizeIdx ≤ 3 ∧
    (parseAction a).strategyIdx ≤ 3 ∧
    tradeSizes.getD (parseAction a).tradeSizeIdx 0 ∈ tradeSizes ∧
    strategies.getD (parseAction a).strategyIdx "" ∈ strategies ∧
    (parseAction a).threshold = a.a0 ∧
    (parseAction a).priorityFee = a.a3 ∧
    ((parseAction a).useFlashloan = true ↔ a.a4 > 0.5) := by
  refine ⟨clip_idx_le_three _, clip_idx_le_three _,
    tradeSizes_getD_mem _ (clip_idx_le_three _),
    strategies_getD_mem _ (clip_idx_le_three _), rfl, rfl, ?_⟩
  unfold parseAction
  by_cases h : a.a4 > 0.5 <;> simp [h]

/-! Drawdown fold lemmas. -/

lemma ddFold_snd_ge (l : List ℝ) : ∀ a : ℝ × ℝ, a.2 ≤ (l.foldl ddStep a).2 := by
  induction l with
  | nil => intro a; exact le_refl _
  | cons c t ih =>
      intro a
      simp only [List.foldl_cons]
      refine le_trans ?_ (ih (ddStep a c))
      show a.2 ≤ max a.2 _
      exact le_max_left _ _

lemma ddFold_chain (l : List ℝ) : ∀ p d : ℝ, List.Chain (· ≤ ·) p l → 0 ≤ d →
    (l.foldl ddStep (p, d)).2 = d := by
  induction l with
  | nil => intro p d _ _; rfl
  | cons c t ih =>
      intro p d hchain hd
      obtain ⟨hpc, htail⟩ := List.chain_cons.mp hchain
      simp only [List.foldl_cons]
      by_cases hc : c > p
      · have hstep : ddStep (p, d) c = (c, d) := by
          unfold ddStep
          dsimp only
          rw [if_pos hc]
          have hz : (if c > 0 then (c - c) / c else 0 : ℝ) = 0 := by
            split <;> simp
          rw [hz, max_eq_left hd]
        rw [hstep]
        exact ih c d htail hd
      · have hcp : c = p := le_antisymm (not_lt.mp hc) hpc
        have hstep : ddStep (p, d) c = (p, d) := by
          unfold ddStep
          dsimp only
          rw [if_neg hc]
          have hz : (if p > 0 then (p - c) / p else 0 : ℝ) = 0 := by
            rw [hcp]
            split <;> simp
          rw [hz, max_eq_left hd]
        rw [hstep]
        exact ih p d (hcp ▸ htail) hd

lemma ddFold_le_one (l : List ℝ) : ∀ p d : ℝ, 0 ≤ p → (∀ x ∈ l, 0 ≤ x) → d ≤ 1 →
    (l.foldl ddStep (p, d)).2 ≤ 1 := by
  induction l with
  | nil => intro p d _ _ hd; exact hd
  | cons c t ih =>
      intro p d hp hl hd
      have hc : 0 ≤ c := hl c (List.mem_cons_self _ _)
      simp only [List.foldl_cons]
      have hstep : ddStep (p, d) c =
          (if c > p then c else p,
           max d (if (if c > p then c else p) > 0
             then ((if c > p then c else p) - c) / (if c > p then c else p) else 0)) := rfl
      rw [hstep]
      have hpeak : 0 ≤ (if c > p then c else p) := by split <;> assumption
      refine ih _ _ hpeak (fun x hx => hl x (List.mem_cons_of_mem _ hx)) ?_
      refine max_le hd ?_
      by_cases hcp : c > p
      · simp only [if_pos hcp]
        split
        · rename_i hpos
          rw [div_le_one hpos]
          linarith
        · norm_num
      · simp only [if_neg hcp]
        split
        · rename_i hpos
          rw [div_le_one hpos]
          linarith
        · norm_num

/-- C5 counterexample: the claim says the computed maximum drawdown lies
in [0, 100] even when a trade drives capital negative before the
bankruptcy break.  On the capital trajectory [100, -50] the source
computes (100 - (-50)) / 100 * 100 = 150 percent. -/
theorem max_drawdown_150_on_negative_capital :
    calculateMaxDrawdown [100, -50] = 150 ∧
    ¬ calculateMaxDrawdown [100, -50] ≤ 100 := by
  have h : calculateMaxDrawdown [100, -50] = 150 := by
    unfold calculateMaxDrawdown ddStep
    norm_num [max_def]
  exact ⟨h, by rw [h]; norm_num⟩

/-- C5 amended: the computed maximum drawdown is always nonnegative, is
0 for a trajectory of fewer than 2 entries, is 0 for any monotonically
non-decreasing trajectory, and lies in [0, 100] whenever every capital
value in the trajectory is nonnegative (a trade that drives capital
negative can push it above 100). -/
theorem max_drawdown_bounds (h : List ℝ) :
    0 ≤ calculateMaxDrawdown h ∧
    (h.length < 2 → calculateMaxDrawdown h = 0) ∧
    (List.Chain' (· ≤ ·) h → calculateMaxDrawdown h = 0) ∧
    ((∀ x ∈ h, 0 ≤ x) → calculateMaxDrawdown h ≤ 100) := by
  refine ⟨?_, ?_, ?_, ?_⟩
  · unfold calculateMaxDrawdown
    split
    · exact le_refl 0
    · have hge := ddFold_snd_ge h (h.headD 0, 0)
      have : (0 : ℝ) ≤ (h.foldl ddStep (h.headD 0, 0)).2 := hge
      nlinarith
  · intro hlen
    unfold calculateMaxDrawdown
    rw [if_pos hlen]
  · intro hchain
    unfold calculateMaxDrawdown
    split
    · rfl
    · rename_i hlen
      match h, hchain with
      | [], _ => simp at hlen
      | c :: t, hchain =>
          have htail : List.Chain (· ≤ ·) c t := hchain
          simp only [List.headD_cons, List.foldl_cons]
          have hstep : ddStep (c, 0) c = (c, 0) := by
            unfold ddStep
            dsimp only
            rw [if_neg (lt_irrefl c)]
            have hz : (if c > 0 then (c - c) / c else 0 : ℝ) = 0 := by
              split <;> simp
            rw [hz, max_self]
          rw [hstep, ddFold_chain t c 0 htail (le_refl 0)]
          norm_num
  · intro hpos
    unfold calculateMaxDrawdown
    split
    · norm_num
    · rename_i hlen
      match h, hpos with
      | [], _ => simp at hlen
      | c :: t, hpos =>
          have hc : 0 ≤ c := hpos c (List.mem_cons_self _ _)
          simp only [List.headD_cons]
          have := ddFold_le_one (c :: t) c 0 hc hpos (by norm_num)
          nlinarith

/-- C5 witness: a concrete monotone nonnegative trajectory. -/
theorem max_drawdown_bounds_witness :
    calculateMaxDrawdown [(1 : ℝ), 2, 3] = 0 ∧
    calculateMaxDrawdown [(1 : ℝ), 2, 3] ≤ 100 := by
  refine ⟨(max_drawdown_bounds [(1 : ℝ), 2, 3]).2.2.1 ?_,
    (max_drawdown_bounds [(1 : ℝ), 2, 3]).2.2.2 ?_⟩
  · simp only [List.chain'_cons, List.chain'_singleton, and_true]
    norm_num
  · intro x hx
    fin_cases hx <;> norm_num

/-! Numerical cost-model scenario lemmas. -/

lemma sqrt_ten_gt : 3.16227 < Real.sqrt 10 := by
  nlinarith [Real.sq_sqrt (show (0 : ℝ) ≤ 10 by norm_num), Real.sqrt_nonneg 10]

lemma sqrt_ten_lt : Real.sqrt 10 < 3.16228 := by
  nlinarith [Real.sq_sqrt (show (0 : ℝ) ≤ 10 by norm_num), Real.sqrt_nonneg 10]

lemma priceImpact_C6 : priceImpact 10000 (poolDepthUsd 1) = Real.sqrt 10 / 100000 := by
  unfold priceImpact poolDepthUsd
  rw [show (10000 : ℝ) / (1 * 10000000) = 1 / 1000 by norm_num]
  rw [show (1.5 : ℝ) = (3 : ℝ) * (1 / 2 : ℝ) by norm_num]
  rw [Real.rpow_mul (by norm_num : (0 : ℝ) ≤ 1 / 1000)]
  rw [show ((3 : ℝ) : ℝ) = ((3 : ℕ) : ℝ) by norm_num]
  rw [Real.rpow_natCast]
  rw [show ((1 : ℝ) / 1000) ^ (3 : ℕ) = (10 : ℝ) * (1 / 100000) ^ 2 by norm_num]
  rw [← Real.sqrt_eq_rpow]
  rw [Real.sqrt_mul (by norm_num : (0 : ℝ) ≤ 10)]
  rw [Real.sqrt_sq (by norm_num : (0 : ℝ) ≤ 1 / 100000)]
  ring

lemma simulateTrade_C6 (s : String) :
    simulateTrade 1 stC1 0.005 10000 s 2 false (constRng 1) =
      (⟨true,
        10000 * stC1.spread - 10000 * priceImpact 10000 (poolDepthUsd stC1.liquidity)
          - gasCostUsd (baseGasUnits false * 1) (gasPriceGwei 2) - 0,
        gasCostUsd (baseGasUnits false * 1) (gasPriceGwei 2), false⟩,
       ⟨fun _ => 1, 1⟩) := by
  unfold simulateTrade revertProb baseRevertProb GlobalRng.next constRng stC1
  norm_num [max_def]

lemma gasCost_C6 : gasCostUsd (baseGasUnits false * 1) (gasPriceGwei 2) = 15 := by
  unfold gasCostUsd baseGasUnits gasPriceGwei
  norm_num

lemma stC1_liquidity : stC1.liquidity = 1 := rfl

lemma stC1_spread : stC1.spread = 0.01 := rfl

/-- C6: the deterministic cost-model scenario of the spec: state spread
0.01 and liquidity 1.0, action trade size 10000, priority fee 2.0, no
flash loan, gas multiplier 1.0, revert draw suppressed (the Bernoulli
draw is 1, which is not below the revert probability 0.14).  Gas units
150000, gas price 40 gwei, gas cost 15 USD, pool depth 10 million USD,
price impact within 5e-9 of 3.162e-5, slippage within 5e-4 of 0.316
USD, gross profit 100 USD, net PnL within 0.005 of 84.68, and the
reward equals the net PnL (gas under the 50 USD penalty line, no revert,
no passivity penalty), also within 0.005 of 84.68. -/
theorem cost_model_scenario :
    baseGasUnits false * 1 = 150000 ∧
    gasPriceGwei 2 = 40 ∧
    gasCostUsd (baseGasUnits false * 1) (gasPriceGwei 2) = 15 ∧
    poolDepthUsd stC1.liquidity = 10000000 ∧
    |priceImpact 10000 (poolDepthUsd stC1.liquidity) - 3.162e-5| < 5e-9 ∧
    |10000 * priceImpact 10000 (poolDepthUsd stC1.liquidity) - 0.316| < 5e-4 ∧
    10000 * stC1.spread = 100 ∧
    (simulateTrade 1 stC1 0.005 10000 "dex_arb" 2 false (constRng 1)).1.success = true ∧
    (simulateTrade 1 stC1 0.005 10000 "dex_arb" 2 false (constRng 1)).1.reverted = false ∧
    |(simulateTrade 1 stC1 0.005 10000 "dex_arb" 2 false (constRng 1)).1.pnl - 84.68| < 0.005 ∧
    calculateReward (simulateTrade 1 stC1 0.005 10000 "dex_arb" 2 false (constRng 1)).1 stC1.spread
      = (simulateTrade 1 stC1 0.005 10000 "dex_arb" 2 false (constRng 1)).1.pnl ∧
    |calculateReward (simulateTrade 1 stC1 0.005 10000 "dex_arb" 2 false (constRng 1)).1 stC1.spread
      - 84.68| < 0.005 := by
  have hgt := sqrt_ten_gt
  have hlt := sqrt_ten_lt
  have hpi : priceImpact 10000 (poolDepthUsd stC1.liquidity) = Real.sqrt 10 / 100000 := by
    rw [stC1_liquidity, priceImpact_C6]
  have hpnl : (simulateTrade 1 stC1 0.005 10000 "dex_arb" 2 false (constRng 1)).1.pnl
      = 100 - Real.sqrt 10 / 10 - 15 := by
    rw [simulateTrade_C6]
    show 10000 * stC1.spread - 10000 * priceImpact 10000 (poolDepthUsd stC1.liquidity)
      - gasCostUsd (baseGasUnits false * 1) (gasPriceGwei 2) - 0
      = 100 - Real.sqrt 10 / 10 - 15
    rw [hpi, gasCost_C6, stC1_spread]
    ring
  have hreward : calculateReward
      (simulateTrade 1 stC1 0.005 10000 "dex_arb" 2 false (constRng 1)).1 stC1.spread
      = (simulateTrade 1 stC1 0.005 10000 "dex_arb" 2 false (constRng 1)).1.pnl := by
    rw [simulateTrade_C6]
    unfold calculateReward gasCostUsd baseGasUnits gasPriceGwei
    norm_num
  refine ⟨by unfold baseGasUnits; norm_num,
    by unfold gasPriceGwei; norm_num,
    gasCost_C6,
    by rw [stC1_liquidity]; unfold poolDepthUsd; norm_num,
    ?_, ?_,
    by rw [stC1_spread]; norm_num,
    by rw [simulateTrade_C6],
    by rw [simulateTrade_C6],
    ?_, hreward, ?_⟩
  · rw [hpi, abs_lt]
    constructor <;> nlinarith
  · rw [hpi, abs_lt]
    constructor <;> nlinarith
  · rw [hpnl, abs_lt]
    constructor <;> nlinarith
  · rw [hreward, hpnl, abs_lt]
    constructor <;> nlinarith

/-- C7 counterexample: the claim says a trade that was attempted but
reverted incurs the revert penalty but not the passivity penalty.  For
a reverted outcome (success false, pnl -6, gas 10) with spread 0.02 the
source computes -6 - 100 - 5 = -111: the 5.0 passivity penalty is also
subtracted, because the reward code keys it on success=false, not on
whether a trade was attempted.  The claim would predict -106. -/
theorem reverted_trade_pays_passivity_penalty :
    calculateReward ⟨false, -6, 10, true⟩ 0.02 = -111 ∧
    calculateReward ⟨false, -6, 10, true⟩ 0.02 ≠ -106 := by
  have h : calculateReward ⟨false, -6, 10, true⟩ 0.02 = -111 := by
    unfold calculateReward
    norm_num
  exact ⟨h, by rw [h]; norm_num⟩

/-- C7 amended: when the spread exceeds 0.01, the 5.0 penalty is
subtracted from the reward for every unsuccessful outcome: both for a
no-trade step (spread below the threshold, reward exactly -5) and for
an attempted trade that reverted (which incurs the 100.0 revert penalty
and, additionally, the 5.0 penalty). -/
theorem passivity_penalty_on_any_failure (gm : ℝ) (st : MarketState)
    (thr ts pf : ℝ) (s : String) (fl : Bool) (g : GlobalRng)
    (hspread : st.spread > 0.01) :
    (st.spread < thr →
      calculateReward (simulateTrade gm st thr ts s pf fl g).1 st.spread = -5) ∧
    (¬ st.spread < thr → g.stream g.idx < revertProb st.congestion pf →
      ¬ gasCostUsd (baseGasUnits fl * gm) (gasPriceGwei pf) * 0.6 > 50 →
      calculateReward (simulateTrade gm st thr ts s pf fl g).1 st.spread =
        -(gasCostUsd (baseGasUnits fl * gm) (gasPriceGwei pf) * 0.6) - 100 - 5) := by
  constructor
  · intro hgate
    unfold simulateTrade
    rw [if_pos hgate]
    unfold calculateReward
    dsimp only
    rw [if_pos ⟨rfl, hspread⟩]
    norm_num
  · intro hgate hrev hgas
    unfold simulateTrade
    rw [if_neg hgate]
    unfold GlobalRng.next
    dsimp only
    rw [if_pos hrev]
    unfold calculateReward
    dsimp only
    rw [if_neg hgas]
    rw [if_pos ⟨rfl, hspread⟩]
    norm_num

/-- Market state with spread 0.02, high enough congestion kept moderate. -/
noncomputable def stC7 : MarketState := ⟨0.02, 1, 0.1, 0.5, 0.5, 0, 0, 0, 0⟩

/-- C7 witness: a concrete reverted trade (revert draw 0.1 below the
revert probability 0.3) with spread 0.02 collects the revert penalty
and the passivity penalty on top of the burnt gas. -/
theorem passivity_penalty_on_any_failure_witness :
    calculateReward (simulateTrade 1 stC7 0.005 50 "dex_arb" 0 false (constRng 0.1)).1 stC7.spread
      = -(gasCostUsd (baseGasUnits false * 1) (gasPriceGwei 0) * 0.6) - 100 - 5 := by
  refine (passivity_penalty_on_any_failure 1 stC7 0.005 50 0 "dex_arb" false (constRng 0.1)
    ?_).2 ?_ ?_ ?_
  · show stC7.spread > 0.01
    unfold stC7
    norm_num
  · show ¬ stC7.spread < 0.005
    unfold stC7
    norm_num
  · show (constRng 0.1).stream (constRng 0.1).idx < revertProb stC7.congestion 0
    unfold constRng revertProb baseRevertProb stC7
    norm_num [max_def]
  · unfold gasCostUsd baseGasUnits gasPriceGwei
    norm_num

/-- C8: threshold gating.  Whenever the observed spread is below the
parsed threshold, step() reports pnl 0, gas 0, success false in info,
leaves the success and revert counters untouched, the trade simulation
(whatever the trade size, strategy, priority fee, flash-loan flag and
revert draw) returns the zero outcome with reverted = false without
consuming a random draw, and the backtester record block appends
nothing for such an info. -/
theorem threshold_gate (e : EnvState) (a : RawAction) (g : GlobalRng)
    (h : e.state.spread < (parseAction a).threshold) :
    (step e a g).info.pnl = 0 ∧
    (step e a g).info.gasCost = 0 ∧
    (step e a g).info.success = false ∧
    (step e a g).env.numSuccesses = e.numSuccesses ∧
    (step e a g).env.numReverts = e.numReverts ∧
    (∀ (gm ts pf : ℝ) (s : String) (fl : Bool) (g' : GlobalRng),
      simulateTrade gm e.state (parseAction a).threshold ts s pf fl g'
        = (⟨false, 0, 0, false⟩, g')) ∧
    (∀ (ep stp : Nat) (s : BtState),
      recordStep ep stp s ⟨(step e a g).info.pnl, (step e a g).info.gasCost,
        (step e a g).info.success, false⟩ = s) := by
  have hsim : ∀ (gm ts pf : ℝ) (s : String) (fl : Bool) (g' : GlobalRng),
      simulateTrade gm e.state (parseAction a).threshold ts s pf fl g'
        = (⟨false, 0, 0, false⟩, g') := by
    intro gm ts pf s fl g'
    unfold simulateTrade
    rw [if_pos h]
  have hinfo : (step e a g).info.pnl = 0 ∧ (step e a g).info.gasCost = 0 ∧
      (step e a g).info.success = false ∧
      (step e a g).env.numSuccesses = e.numSuccesses ∧
      (step e a g).env.numReverts = e.numReverts := by
    unfold step
    dsimp only
    split
    · exact ⟨rfl, rfl, rfl, rfl, rfl⟩
    · rw [hsim]
      exact ⟨rfl, rfl, rfl, rfl, rfl⟩
  obtain ⟨h1, h2, h3, h4, h5⟩ := hinfo
  refine ⟨h1, h2, h3, h4, h5, hsim, ?_⟩
  intro ep stp s
  rw [h1, h2, h3]
  unfold recordStep
  rw [if_neg (by norm_num)]

/-- Market state with spread 0.0001, below any in-bounds threshold. -/
noncomputable def stC8 : MarketState := ⟨0.0001, 0.5, 0.1, 0.5, 0.9, 0, 0, 0, 0⟩

/-- Environment mid-episode with nonzero counters. -/
noncomputable def envC8 : EnvState := ⟨1, 100, 5, 1000, 0, 0, 2, 3, stC8, none⟩

/-- C8 witness: spread 0.0001 below threshold 0.005 leaves the counters
of a mid-episode environment untouched and reports a zero outcome. -/
theorem threshold_gate_witness :
    (step envC8 actC1 (constRng 0.7)).info.pnl = 0 ∧
    (step envC8 actC1 (constRng 0.7)).info.success = false ∧
    (step envC8 actC1 (constRng 0.7)).env.numSuccesses = envC8.numSuccesses ∧
    (step envC8 actC1 (constRng 0.7)).env.numReverts = envC8.numReverts := by
  have h := threshold_gate envC8 actC1 (constRng 0.7)
    (by rw [parseAction_actC1]; show stC8.spread < _; unfold stC8; norm_num)
  exact ⟨h.1, h.2.2.1, h.2.2.2.1, h.2.2.2.2.1⟩

/-! Capital-consistency invariant of the backtester. -/

/-- The capital trajectory starts at the initial capital, has exactly
one more entry than the trade log, tracks the running capital, and each
entry is the previous one plus the pnl of the trade recorded with it,
which also carries that capital in its capital-after field. -/
def CapitalConsistent (init : ℝ) (s : BtState) : Prop :=
  s.capitalHistory.length = s.trades.length + 1 ∧
  s.capitalHistory.getD 0 0 = init ∧
  s.currentCapital = s.capitalHistory.getD s.trades.length 0 ∧
  ∀ i < s.trades.length,
    s.capitalHistory.getD (i + 1) 0
      = s.capitalHistory.getD i 0 + (s.trades.getD i dummyTrade).pnl ∧
    (s.trades.getD i dummyTrade).capital = s.capitalHistory.getD (i + 1) 0

lemma getD_append_left {α : Type} (l l' : List α) (d : α) (n : Nat) (h : n < l.length) :
    (l ++ l').getD n d = l.getD n d := by
  rw [List.getD_eq_getElem?_getD, List.getD_eq_getElem?_getD,
    List.getElem?_append_left h]

lemma getD_append_len {α : Type} (l : List α) (x d : α) :
    (l ++ [x]).getD l.length d = x := by
  rw [List.getD_eq_getElem?_getD, List.getElem?_append_right (le_refl _)]
  simp

lemma recordStep_preserves (init : ℝ) (ep st : Nat) (s : BtState) (i : StepInfo)
    (h : CapitalConsistent init s) : CapitalConsistent init (recordStep ep st s i) := by
  obtain ⟨hlen, h0, hcur, hrel⟩ := h
  unfold recordStep
  split
  · rename_i hpnl
    dsimp only
    have hlen1 : 0 < s.capitalHistory.length := by omega
    refine ⟨?_, ?_, ?_, ?_⟩
    · simp only [List.length_append, List.length_cons, List.length_nil, hlen]
    · rw [getD_append_left _ _ _ _ hlen1]
      exact h0
    · simp only [List.length_append, List.length_cons, List.length_nil]
      rw [show s.trades.length + 1 = s.capitalHistory.length by omega]
      rw [getD_append_len]
    · intro j hj
      simp only [List.length_append, List.length_cons, List.length_nil] at hj
      by_cases hjlt : j < s.trades.length
      · have hj1 : j + 1 < s.capitalHistory.length := by omega
        have hj0 : j < s.capitalHistory.length := by omega
        rw [getD_append_left _ _ _ _ hj1, getD_append_left _ _ _ _ hj0,
          getD_append_left _ _ _ _ hjlt]
        exact hrel j hjlt
      · have hjeq : j = s.trades.length := by omega
        rw [hjeq]
        rw [show s.trades.length + 1 = s.capitalHistory.length from by omega,
          getD_append_len]
        have hj0 : s.trades.length < s.capitalHistory.length := by omega
        rw [getD_append_left _ _ _ _ hj0, getD_append_len]
        constructor
        · show s.currentCapital + i.pnl = s.capitalHistory.getD s.trades.length 0 + i.pnl
          rw [hcur]
        · rfl
  · exact ⟨hlen, h0, hcur, hrel⟩

lemma runSteps_preserves (init : ℝ) (infos : List StepInfo) :
    ∀ (ep st : Nat) (s : BtState), CapitalConsistent init s →
      CapitalConsistent init (runSteps ep st infos s) := by
  induction infos with
  | nil => intro ep st s h; exact h
  | cons i rest ih =>
      intro ep st s h
      simp only [runSteps]
      split
      · exact recordStep_preserves init ep st s i h
      · split
        · exact recordStep_preserves init ep st s i h
        · exact ih ep (st + 1) _ (recordStep_preserves init ep st s i h)

lemma runEpisodes_preserves (init : ℝ) (eps : List (List StepInfo)) :
    ∀ (ep : Nat) (s : BtState), CapitalConsistent init s →
      CapitalConsistent init (runEpisodes ep eps s) := by
  induction eps with
  | nil => intro ep s h; exact h
  | cons infos rest ih =>
      intro ep s h
      simp only [runEpisodes]
      split
      · exact h
      · exact ih (ep + 1) _ (runSteps_preserves init infos ep 0 s h)

/-- C9: in every backtest run (any episode structure, any sequence of
per-step outcomes), the capital trajectory starts with the initial
capital, gains exactly one entry per recorded trade, satisfies
trajectory(i+1) = trajectory(i) + trade(i).pnl for every recorded trade
index (so the entry written with trade 0 is the initial capital plus
its pnl), and each trade record's capital-after field equals the entry
appended with it. -/
theorem backtest_capital_consistency (init : ℝ) (eps : List (List StepInfo)) :
    CapitalConsistent init (runEpisodes 0 eps (initBt init)) := by
  have hinit : CapitalConsistent init (initBt init) := by
    refine ⟨rfl, rfl, rfl, ?_⟩
    intro i hi
    simp only [initBt, List.length_nil] at hi
    omega
  exact runEpisodes_preserves init eps 0 (initBt init) hinit

/-- C9 witness: one episode with a single profitable step: trajectory
entry 1 equals entry 0 plus the recorded pnl, and entry 0 is the
initial capital 100. -/
theorem backtest_capital_consistency_witness :
    (runEpisodes 0 [[⟨5, 1, true, false⟩]] (initBt 100)).capitalHistory.getD 1 0
      = (runEpisodes 0 [[⟨5, 1, true, false⟩]] (initBt 100)).capitalHistory.getD 0 0
        + ((runEpisodes 0 [[⟨5, 1, true, false⟩]] (initBt 100)).trades.getD 0 dummyTrade).pnl ∧
    (runEpisodes 0 [[⟨5, 1, true, false⟩]] (initBt 100)).capitalHistory.getD 0 0 = 100 := by
  have h := backtest_capital_consistency 100 [[⟨5, 1, true, false⟩]]
  refine ⟨(h.2.2.2 0 ?_).1, h.2.1⟩
  have hlen : (runEpisodes 0 [[⟨5, 1, true, false⟩]] (initBt 100)).trades.length = 1 := by
    simp only [runEpisodes, runSteps, recordStep, initBt]
    norm_num
  omega

/-! Comparison of the base and heuristic backtester loops. -/

/-- All backtester fields except the trade log agree. -/
def AgreeExceptTrades (s1 s2 : BtState) : Prop :=
  s1.currentCapital = s2.currentCapital ∧
  s1.capitalHistory = s2.capitalHistory ∧
  s1.totalTrades = s2.totalTrades ∧
  s1.successfulTrades = s2.successfulTrades ∧
  s1.failedTrades = s2.failedTrades ∧
  s1.totalPnl = s2.totalPnl ∧
  s1.totalGasSpent = s2.totalGasSpent

/-- The running capital stays positive after every recorded trade of
the sequence, so the bankruptcy break of the base engine never fires. -/
def NoBankrupt : ℝ → List StepInfo → Prop
  | _, [] => True
  | cap, i :: rest =>
      (i.pnl ≠ 0 → cap + i.pnl > 0) ∧
      NoBankrupt (if i.pnl ≠ 0 then cap + i.pnl else cap) rest

lemma recordStepHeuristic_agree (ep st : Nat) (s1 s2 : BtState) (i : StepInfo)
    (h : AgreeExceptTrades s1 s2) :
    AgreeExceptTrades (recordStep ep st s1 i) (recordStepHeuristic s2 i) ∧
    (recordStepHeuristic s2 i).trades = s2.trades := by
  obtain ⟨h1, h2, h3, h4, h5, h6, h7⟩ := h
  unfold recordStep recordStepHeuristic
  by_cases hpnl : i.pnl ≠ 0
  · rw [if_pos hpnl, if_pos hpnl]
    refine ⟨?_, rfl⟩
    unfold AgreeExceptTrades
    dsimp only
    rw [h1, h2, h3, h4, h5, h6, h7]
    exact ⟨rfl, rfl, rfl, rfl, rfl, rfl, rfl⟩
  · rw [if_neg hpnl, if_neg hpnl]
    exact ⟨⟨h1, h2, h3, h4, h5, h6, h7⟩, rfl⟩

lemma recordStep_capital (ep st : Nat) (s : BtState) (i : StepInfo) :
    (recordStep ep st s i).currentCapital
      = if i.pnl ≠ 0 then s.currentCapital + i.pnl else s.currentCapital := by
  unfold recordStep
  by_cases hpnl : i.pnl ≠ 0
  · rw [if_pos hpnl, if_pos hpnl]
  · rw [if_neg hpnl, if_neg hpnl]

lemma runSteps_heuristic_agree (infos : List StepInfo) :
    ∀ (ep st : Nat) (s1 s2 : BtState), AgreeExceptTrades s1 s2 →
      NoBankrupt s1.currentCapital infos →
      AgreeExceptTrades (runSteps ep st infos s1) (runStepsHeuristic infos s2) ∧
      (runStepsHeuristic infos s2).trades = s2.trades := by
  induction infos with
  | nil => intro ep st s1 s2 h _; exact ⟨h, rfl⟩
  | cons i rest ih =>
      intro ep st s1 s2 h hnb
      obtain ⟨hnb1, hnb2⟩ := hnb
      have hrec := recordStepHeuristic_agree ep st s1 s2 i h
      have hcap := recordStep_capital ep st s1 i
      simp only [runSteps, runStepsHeuristic]
      have hnobreak : ¬ (i.pnl ≠ 0 ∧ (recordStep ep st s1 i).currentCapital ≤ 0) := by
        intro ⟨hp, hle⟩
        rw [hcap, if_pos hp] at hle
        exact absurd hle (not_le.mpr (hnb1 hp))
      rw [if_neg hnobreak]
      have hnb2' : NoBankrupt (recordStep ep st s1 i).currentCapital rest := by
        rw [hcap]
        exact hnb2
      by_cases hdone : i.done = true
      · rw [if_pos hdone, if_pos hdone]
        exact hrec
      · rw [if_neg hdone, if_neg hdone]
        have := ih ep (st + 1) (recordStep ep st s1 i) (recordStepHeuristic s2 i)
          hrec.1 hnb2'
        exact ⟨this.1, this.2.trans hrec.2⟩

/-- C10 counterexample: the claim says every variant appends a Trade
record whenever a step's info shows a nonzero PnL, producing the same
trade log as the base engine.  On the same single-step outcome sequence
with pnl 5, the base loop records one trade while the heuristic loop
records none: its run_backtest never appends to self.trades. -/
theorem heuristic_backtester_drops_trade_records :
    (runSteps 0 0 [⟨5, 1, true, false⟩] (initBt 100)).trades.length = 1 ∧
    (runStepsHeuristic [⟨5, 1, true, false⟩] (initBt 100)).trades.length = 0 := by
  have hbase : runSteps 0 0 [⟨5, 1, true, false⟩] (initBt 100)
      = recordStep 0 0 (initBt 100) ⟨5, 1, true, false⟩ := by
    simp only [runSteps]
    split
    · rfl
    · split
      · rfl
      · rfl
  have hheur : runStepsHeuristic [⟨5, 1, true, false⟩] (initBt 100)
      = recordStepHeuristic (initBt 100) ⟨5, 1, true, false⟩ := by
    simp only [runStepsHeuristic]
    split
    · rfl
    · rfl
  constructor
  · rw [hbase]
    unfold recordStep initBt
    rw [if_pos (show (5 : ℝ) ≠ 0 by norm_num)]
    rfl
  · rw [hheur]
    unfold recordStepHeuristic initBt
    rw [if_pos (show (5 : ℝ) ≠ 0 by norm_num)]
    rfl

/-- C10 amended: the L2 variant only substitutes the environment
configuration and inherits the base recording loop verbatim (it is the
same engine, here the same runSteps/runEpisodes definitions).  The
heuristic variant, run on the same sequence of per-step outcomes from
the same starting state, reproduces the base engine's capital
trajectory, running capital, counters and pnl/gas totals as long as
capital stays positive, but appends no Trade records at all: its trade
log stays empty, so the trade-log-derived Sharpe ratio degrades to 0
(and, unlike the base loop, it has no bankruptcy break). -/
theorem heuristic_variant_differs_only_in_trades (infos : List StepInfo) (init : ℝ)
    (hnb : NoBankrupt init infos) :
    AgreeExceptTrades (runSteps 0 0 infos (initBt init))
      (runStepsHeuristic infos (initBt init)) ∧
    (runStepsHeuristic infos (initBt init)).trades = [] ∧
    calculateSharpeRatio (runStepsHeuristic infos (initBt init)).trades = 0 := by
  have h := runSteps_heuristic_agree infos 0 0 (initBt init) (initBt init)
    ⟨rfl, rfl, rfl, rfl, rfl, rfl, rfl⟩ hnb
  have htr : (runStepsHeuristic infos (initBt init)).trades = [] := h.2
  refine ⟨h.1, htr, ?_⟩
  rw [htr]
  unfold calculateSharpeRatio
  rw [if_pos (by norm_num)]

/-- C10 witness: on a single profitable outcome the heuristic loop
matches the base capital trajectory and counters while leaving its
trade log empty. -/
theorem heuristic_variant_differs_only_in_trades_witness :
    (runSteps 0 0 [⟨5, 1, true, false⟩] (initBt 100)).capitalHistory
      = (runStepsHeuristic [⟨5, 1, true, false⟩] (initBt 100)).capitalHistory ∧
    (runSteps 0 0 [⟨5, 1, true, false⟩] (initBt 100)).totalTrades
      = (runStepsHeuristic [⟨5, 1, true, false⟩] (initBt 100)).totalTrades ∧
    (runStepsHeuristic [⟨5, 1, true, false⟩] (initBt 100)).trades = [] := by
  have h := heuristic_variant_differs_only_in_trades [⟨5, 1, true, false⟩] 100
    (by
      unfold NoBankrupt
      refine ⟨fun _ => by norm_num, ?_⟩
      unfold NoBankrupt
      trivial)
  exact ⟨h.1.2.1, h.1.2.2.1, h.2.1⟩

end ArbChameleon
